import Mathlib

/-!
Shallow embedding of the P2P Tic-Tac-Toe backend (`backend/server.js`):
the in-memory `gamesDb`, the `checkWin` helper, and the `/createGame`,
`/joinGame` and `/makeMove` endpoint handlers.

Modelling conventions:
* JS `null`/`undefined` cells are `none`; the marks `'X'`/`'O'` are
  `Mark.X`/`Mark.O`; addresses are `String`.
* `gamesDb` (a JS `Map`) is a function `String → Option Game`;
  `Map.set` overwrites, which `dbSet` reproduces.
* The randomly generated 6-digit match id (`Math.floor(100000 +
  Math.random() * 900000).toString()`) and the outcome of the awaited
  `SIGNER_WALLET.signMessage` call are externalized as parameters
  (`some sig` = the promise resolved, `none` = it threw and the `catch`
  branch ran).
* The cell index taken from the request body is a natural number.  A JS
  write `board[i] = v` with `i ≥ board.length` extends the array to
  length `i + 1`; the intermediate holes are modelled as `none` (they
  read back as `undefined`, which is falsy exactly like `null`).
* JS truthiness tests on string fields (`if (game.playerB)`,
  `if (game.board[index])`) are modelled by `truthyStr` and
  `Option.isSome` respectively (cells are only ever `'X'`/`'O'`, both
  truthy).
-/

namespace TicTacToe

/-- The two marks `'X'` and `'O'` (the spec's mark 1 and mark 2). -/
inductive Mark where
  | X
  | O
deriving DecidableEq, Repr

/-- A board cell: `null` (empty) or a mark. -/
abbrev Cell := Option Mark

/-- The `status` field values of a game record. -/
inductive Status where
  | WAITING
  | PLAYING
  | COMPLETED
deriving DecidableEq, Repr

/-- One value of the in-memory `gamesDb` map, as documented and created by
`/createGame` in `backend/server.js`. -/
structure Game where
  matchId : String
  playerA : String
  playerB : Option String
  board : List Cell
  turn : Option String
  winner : Option String
  status : Status
  signature : Option String
deriving DecidableEq, Repr

/-- The `gamesDb` `Map`, keyed by match id. -/
abbrev Registry := String → Option Game

/-- Model of `Map.set`: store `g` under `k`, overwriting any previous entry. -/
def dbSet (db : Registry) (k : String) (g : Game) : Registry :=
  fun k' => if k' = k then some g else db k'

/-- The empty database (`new Map()`). -/
def db0 : Registry := fun _ => none

/-- JS `s.toLowerCase()`, applied characterwise to the string's characters
(`Char.toLower` lowercases the basic latin letters, exactly the alphabet of
the hex account addresses this system normalizes).  Defined by structural
recursion over the character list so that it reduces inside the kernel. -/
def jsToLower (s : String) : String := String.mk (s.data.map Char.toLower)

/-- JS read `board[i]`: out-of-range reads give `undefined`, i.e. empty. -/
def cellAt (b : List Cell) (i : Nat) : Cell := b.getD i none

/-- JS write `board[i] = v`: in range it replaces the cell, past the end it
extends the array to length `i + 1` (holes modelled as `none`). -/
def arraySet (b : List Cell) (i : Nat) (v : Cell) : List Cell :=
  if i < b.length then b.set i v
  else b ++ List.replicate (i - b.length) none ++ [v]

/-- The `lines` table of `checkWin`: 3 rows, 3 columns, 2 diagonals. -/
def winLines : List (Nat × Nat × Nat) :=
  [(0, 1, 2), (3, 4, 5), (6, 7, 8),
   (0, 3, 6), (1, 4, 7), (2, 5, 8),
   (0, 4, 8), (2, 4, 6)]

/-- The loop body of `checkWin`: scan the line table in order and return
the first line whose three cells are equal and non-empty
(`board[a] && board[a] === board[b] && board[a] === board[c]`). -/
def checkLines (board : List Cell) : List (Nat × Nat × Nat) → Option Mark
  | [] => none
  | (a, b, c) :: rest =>
    match cellAt board a with
    | some m =>
      if cellAt board b = some m ∧ cellAt board c = some m then some m
      else checkLines board rest
    | none => checkLines board rest

/-- The `checkWin` helper from `backend/server.js`. -/
def checkWin (board : List Cell) : Option Mark := checkLines board winLines

/-- JS `!game.board.includes(null)`: the board has no empty cell. -/
def boardFull (board : List Cell) : Bool := !(board.contains none)

/-- JS truthiness of an optional string field: `null`/`undefined` and the
empty string are falsy, every other string is truthy. -/
def truthyStr (s : Option String) : Bool :=
  match s with
  | none => false
  | some s => !s.isEmpty

/-- The fresh record stored by `/createGame`. -/
def newGame (matchId playerA : String) : Game :=
  { matchId := matchId
    playerA := jsToLower playerA
    playerB := none
    board := List.replicate 9 none
    turn := some (jsToLower playerA)
    winner := none
    status := Status.WAITING
    signature := none }

/-- Handler `/createGame`: `gamesDb.set(matchId, ...)` with the generated id
passed in as a parameter.  The response is always `{success, matchId}`. -/
def createGame (db : Registry) (matchId playerA : String) : Registry :=
  dbSet db matchId (newGame matchId playerA)

/-- The three error responses of `/joinGame`. -/
inductive JoinError where
  | NotFound
  | AlreadyFull
  | SelfPlay
deriving DecidableEq, Repr

/-- Handler `/joinGame`: the three checks in source order, then the in-place
mutation `game.playerB = playerB.toLowerCase(); game.status = 'PLAYING'`.
Returns the updated database and the error response, if any. -/
def joinGame (db : Registry) (matchId playerB : String) :
    Registry × Option JoinError :=
  match db matchId with
  | none => (db, some JoinError.NotFound)
  | some game =>
    if truthyStr game.playerB then (db, some JoinError.AlreadyFull)
    else if game.playerA = jsToLower playerB then (db, some JoinError.SelfPlay)
    else
      (dbSet db matchId
        { game with playerB := some (jsToLower playerB), status := Status.PLAYING },
       none)

/-- The four error responses of `/makeMove`.  The handler performs no
index-range check, so there is no `InvalidIndex` constructor. -/
inductive MoveError where
  | NotFound
  | GameNotActive
  | NotYourTurn
  | CellTaken
deriving DecidableEq, Repr

/-- JS `const symbol = (player.toLowerCase() === game.playerA) ? 'X' : 'O'`. -/
def mark (game : Game) (player : String) : Mark :=
  if jsToLower player = game.playerA then Mark.X else Mark.O

/-- The board after `game.board[index] = symbol`. -/
def updatedBoard (game : Game) (player : String) (index : Nat) : List Cell :=
  arraySet game.board index (some (mark game player))

/-- The success path of `/makeMove` after the four checks passed: place the
mark, then branch on win / draw / continue exactly as the source does.
On a win, a failed signing attempt (`signOutcome = none`) runs the `catch`
branch, leaving `game.signature` untouched. -/
def moveUpdate (game : Game) (player : String) (index : Nat)
    (signOutcome : Option String) : Game :=
  match checkWin (updatedBoard game player index) with
  | some winnerSymbol =>
    { game with
      board := updatedBoard game player index
      status := Status.COMPLETED
      winner := if winnerSymbol = Mark.X then some game.playerA else game.playerB
      signature :=
        match signOutcome with
        | some s => some s
        | none => game.signature }
  | none =>
    if boardFull (updatedBoard game player index) then
      { game with board := List.replicate 9 none }
    else
      { game with
        board := updatedBoard game player index
        turn := if game.turn = some game.playerA then game.playerB
                else some game.playerA }

/-- Result of a `/makeMove` request: the database afterwards and the HTTP
response (`Except.ok game` is the JSON success payload carrying the game). -/
structure MoveResult where
  db : Registry
  resp : Except MoveError Game

/-- Handler `/makeMove`: the four validation checks in source order, then the
success path.  Rejections return before any mutation. -/
def makeMove (db : Registry) (matchId player : String) (index : Nat)
    (signOutcome : Option String) : MoveResult :=
  match db matchId with
  | none => ⟨db, Except.error MoveError.NotFound⟩
  | some game =>
    if game.status ≠ Status.PLAYING then ⟨db, Except.error MoveError.GameNotActive⟩
    else if game.turn ≠ some (jsToLower player) then ⟨db, Except.error MoveError.NotYourTurn⟩
    else if (cellAt game.board index).isSome then ⟨db, Except.error MoveError.CellTaken⟩
    else
      ⟨dbSet db matchId (moveUpdate game player index signOutcome),
       Except.ok (moveUpdate game player index signOutcome)⟩

/-- Spec-side predicate: line `t` of the board is fully mark `m`. -/
abbrev lineWin (board : List Cell) (t : Nat × Nat × Nat) (m : Mark) : Prop :=
  cellAt board t.1 = some m ∧ cellAt board t.2.1 = some m ∧ cellAt board t.2.2 = some m

/-- Spec-side predicate: some of the 8 winning triples is fully mark `m`. -/
abbrev winningTriple (board : List Cell) (m : Mark) : Prop :=
  ∃ t ∈ winLines, lineWin board t m

/-- Spec-side invariant: every stored game has a 9-cell board. -/
def boards9 (db : Registry) : Prop :=
  ∀ k g, db k = some g → g.board.length = 9

/-! ### Concrete scenario states (all reachable through the endpoints) -/

/-- Result of `createGame` by `"Alice"` with generated id `"111111"`. -/
def dbA : Registry := createGame db0 "111111" "Alice"

/-- State after `joinGame` by `"Bob"` on `dbA`: a fresh `PLAYING` match. -/
def dbAB : Registry := (joinGame dbA "111111" "Bob").1

/-- The record `dbAB` stores under `"111111"`. -/
def gAB : Game :=
  { matchId := "111111", playerA := "alice", playerB := some "bob",
    board := List.replicate 9 none, turn := some "alice", winner := none,
    status := Status.PLAYING, signature := none }

/-- A `PLAYING` match one move away from a win for `"alice"` (X), reached by
create, join and the moves A:0, B:3, A:1, B:4. -/
def gWin : Game :=
  { matchId := "222222", playerA := "alice", playerB := some "bob",
    board := [some Mark.X, some Mark.X, none, some Mark.O, some Mark.O,
              none, none, none, none],
    turn := some "alice", winner := none, status := Status.PLAYING,
    signature := none }

def dbWin : Registry := dbSet db0 "222222" gWin

/-- A `PLAYING` match one move away from a draw for `"alice"` (X): filling
cell 7 completes the board with no winning line. -/
def gDraw : Game :=
  { matchId := "444444", playerA := "alice", playerB := some "bob",
    board := [some Mark.X, some Mark.X, some Mark.O, some Mark.O, some Mark.O,
              some Mark.X, some Mark.X, none, some Mark.O],
    turn := some "alice", winner := none, status := Status.PLAYING,
    signature := none }

def dbDraw : Registry := dbSet db0 "444444" gDraw

/-- Result of `createGame` by `"Alice"` with generated id `"333333"`. -/
def dbC8a : Registry := createGame db0 "333333" "Alice"

/-- State after `joinGame` with the empty-string identity on `dbC8a`: `playerB` is now
set (to `""`) and `status` is `PLAYING`. -/
def dbC8b : Registry := (joinGame dbC8a "333333" "").1

/-! ### Basic lemmas about the embedded primitives -/

lemma dbSet_self (db : Registry) (k : String) (g : Game) : dbSet db k g k = some g := by
  simp [dbSet]

lemma dbSet_ne (db : Registry) (k : String) (g : Game) (k' : String) (h : k' ≠ k) :
    dbSet db k g k' = db k' := by
  simp [dbSet, h]

lemma length_arraySet_of_lt (b : List Cell) (i : Nat) (v : Cell) (h : i < b.length) :
    (arraySet b i v).length = b.length := by
  simp [arraySet, h]

lemma length_arraySet_of_ge (b : List Cell) (i : Nat) (v : Cell) (h : b.length ≤ i) :
    (arraySet b i v).length = i + 1 := by
  simp [arraySet, Nat.not_lt.2 h]
  omega

lemma cellAt_arraySet_self (b : List Cell) (i : Nat) (v : Cell) :
    cellAt (arraySet b i v) i = v := by
  by_cases h : i < b.length
  · rw [cellAt, arraySet, if_pos h, List.getD_eq_getElem _ _ (by simpa using h)]
    simp
  · have hge : b.length ≤ i := Nat.le_of_not_lt h
    rw [cellAt, arraySet, if_neg h]
    have hlen : (b ++ List.replicate (i - b.length) (none : Cell)).length = i := by
      simp
      omega
    rw [List.getD_append_right _ _ _ _ hlen.le, hlen]
    simp

lemma mem_arraySet_of_ge (b : List Cell) (i : Nat) (v w : Cell) (h : b.length ≤ i)
    (hm : w ∈ b) : w ∈ arraySet b i v := by
  rw [arraySet, if_neg (Nat.not_lt.2 h)]
  exact List.mem_append_left _ (List.mem_append_left _ hm)

lemma boardFull_eq_false_of_mem (b : List Cell) (hm : none ∈ b) :
    boardFull b = false := by
  simp [boardFull, List.contains]
  exact hm

/-! ### Soundness and completeness of the line scan in `checkWin` -/

lemma checkLines_cons_none (board : List Cell) (a b c : Nat)
    (rest : List (Nat × Nat × Nat)) (hca : cellAt board a = none) :
    checkLines board ((a, b, c) :: rest) = checkLines board rest := by
  rw [checkLines, hca]

lemma checkLines_cons_some (board : List Cell) (a b c : Nat)
    (rest : List (Nat × Nat × Nat)) (m0 : Mark) (hca : cellAt board a = some m0) :
    checkLines board ((a, b, c) :: rest) =
      if cellAt board b = some m0 ∧ cellAt board c = some m0 then some m0
      else checkLines board rest := by
  rw [checkLines, hca]

lemma checkLines_sound (board : List Cell) (ls : List (Nat × Nat × Nat)) (m : Mark)
    (h : checkLines board ls = some m) : ∃ t ∈ ls, lineWin board t m := by
  induction ls with
  | nil => simp [checkLines] at h
  | cons hd tl ih =>
    obtain ⟨a, b, c⟩ := hd
    cases hca : cellAt board a with
    | none =>
      rw [checkLines_cons_none board a b c tl hca] at h
      obtain ⟨t, ht, hw⟩ := ih h
      exact ⟨t, List.mem_cons_of_mem _ ht, hw⟩
    | some m0 =>
      rw [checkLines_cons_some board a b c tl m0 hca] at h
      by_cases hbc : cellAt board b = some m0 ∧ cellAt board c = some m0
      · rw [if_pos hbc] at h
        have hm0 : m0 = m := by simpa using h
        subst hm0
        exact ⟨(a, b, c), List.mem_cons_self _ _, hca, hbc.1, hbc.2⟩
      · rw [if_neg hbc] at h
        obtain ⟨t, ht, hw⟩ := ih h
        exact ⟨t, List.mem_cons_of_mem _ ht, hw⟩

lemma checkLines_isSome_of_lineWin (board : List Cell) (ls : List (Nat × Nat × Nat))
    (t : Nat × Nat × Nat) (m : Mark) (ht : t ∈ ls) (hw : lineWin board t m) :
    (checkLines board ls).isSome := by
  induction ls with
  | nil => simp at ht
  | cons hd tl ih =>
    obtain ⟨a, b, c⟩ := hd
    rcases List.mem_cons.1 ht with hEq | hTl
    · subst hEq
      obtain ⟨h1, h2, h3⟩ := hw
      have h1' : cellAt board a = some m := h1
      have h2' : cellAt board b = some m := h2
      have h3' : cellAt board c = some m := h3
      rw [checkLines_cons_some board a b c tl m h1', if_pos ⟨h2', h3'⟩]
      rfl
    · cases hca : cellAt board a with
      | none =>
        rw [checkLines_cons_none board a b c tl hca]
        exact ih hTl
      | some m0 =>
        rw [checkLines_cons_some board a b c tl m0 hca]
        by_cases hbc : cellAt board b = some m0 ∧ cellAt board c = some m0
        · rw [if_pos hbc]
          rfl
        · rw [if_neg hbc]
          exact ih hTl

lemma checkWin_sound (board : List Cell) (m : Mark) (h : checkWin board = some m) :
    winningTriple board m :=
  checkLines_sound board winLines m h

lemma checkWin_isSome_of_winningTriple (board : List Cell) (m : Mark)
    (h : winningTriple board m) : (checkWin board).isSome := by
  obtain ⟨t, ht, hw⟩ := h
  exact checkLines_isSome_of_lineWin board winLines t m ht hw

/-! ### Branch characterizations of `makeMove` -/

lemma makeMove_eq_notFound (db : Registry) (mid player : String) (i : Nat)
    (s : Option String) (hdb : db mid = none) :
    makeMove db mid player i s = ⟨db, Except.error MoveError.NotFound⟩ := by
  unfold makeMove
  rw [hdb]

lemma makeMove_eq_notActive (db : Registry) (mid player : String) (i : Nat)
    (s : Option String) (game : Game) (hdb : db mid = some game)
    (h1 : game.status ≠ Status.PLAYING) :
    makeMove db mid player i s = ⟨db, Except.error MoveError.GameNotActive⟩ := by
  unfold makeMove
  rw [hdb]
  simp [h1]

lemma makeMove_eq_notYourTurn (db : Registry) (mid player : String) (i : Nat)
    (s : Option String) (game : Game) (hdb : db mid = some game)
    (h1 : game.status = Status.PLAYING) (h2 : game.turn ≠ some (jsToLower player)) :
    makeMove db mid player i s = ⟨db, Except.error MoveError.NotYourTurn⟩ := by
  unfold makeMove
  rw [hdb]
  simp [h1, h2]

lemma makeMove_eq_cellTaken (db : Registry) (mid player : String) (i : Nat)
    (s : Option String) (game : Game) (hdb : db mid = some game)
    (h1 : game.status = Status.PLAYING) (h2 : game.turn = some (jsToLower player))
    (h3 : (cellAt game.board i).isSome) :
    makeMove db mid player i s = ⟨db, Except.error MoveError.CellTaken⟩ := by
  unfold makeMove
  rw [hdb]
  simp [h1, h2, h3]

lemma makeMove_eq_ok (db : Registry) (mid player : String) (i : Nat)
    (s : Option String) (game : Game) (hdb : db mid = some game)
    (h1 : game.status = Status.PLAYING) (h2 : game.turn = some (jsToLower player))
    (h3 : cellAt game.board i = none) :
    makeMove db mid player i s =
      ⟨dbSet db mid (moveUpdate game player i s),
       Except.ok (moveUpdate game player i s)⟩ := by
  unfold makeMove
  rw [hdb]
  simp [h1, h2, h3]

/-- Inversion: a success response means the four checks passed and
the stored and returned game is `moveUpdate`. -/
lemma makeMove_ok_inv (db : Registry) (mid player : String) (i : Nat)
    (s : Option String) (game g' : Game) (hdb : db mid = some game)
    (hok : (makeMove db mid player i s).resp = Except.ok g') :
    game.status = Status.PLAYING ∧ game.turn = some (jsToLower player) ∧
    cellAt game.board i = none ∧ g' = moveUpdate game player i s ∧
    (makeMove db mid player i s).db = dbSet db mid (moveUpdate game player i s) := by
  by_cases h1 : game.status = Status.PLAYING
  · by_cases h2 : game.turn = some (jsToLower player)
    · by_cases h3 : cellAt game.board i = none
      · have heq := makeMove_eq_ok db mid player i s game hdb h1 h2 h3
        rw [heq] at hok
        have : g' = moveUpdate game player i s := by
          simpa using hok.symm
        exact ⟨h1, h2, h3, this, by rw [heq]⟩
      · have h3' : (cellAt game.board i).isSome := by
          cases hc : cellAt game.board i
          · exact absurd hc h3
          · rfl
        rw [makeMove_eq_cellTaken db mid player i s game hdb h1 h2 h3'] at hok
        simp at hok
    · rw [makeMove_eq_notYourTurn db mid player i s game hdb h1 h2] at hok
      simp at hok
  · rw [makeMove_eq_notActive db mid player i s game hdb h1] at hok
    simp at hok

/-! ### Branch characterizations of `joinGame` -/

lemma joinGame_eq_notFound (db : Registry) (mid pb : String) (hdb : db mid = none) :
    joinGame db mid pb = (db, some JoinError.NotFound) := by
  unfold joinGame
  rw [hdb]

lemma joinGame_eq_alreadyFull (db : Registry) (mid pb : String) (game : Game)
    (hdb : db mid = some game) (h1 : truthyStr game.playerB = true) :
    joinGame db mid pb = (db, some JoinError.AlreadyFull) := by
  unfold joinGame
  rw [hdb]
  simp [h1]

lemma joinGame_eq_selfPlay (db : Registry) (mid pb : String) (game : Game)
    (hdb : db mid = some game) (h1 : truthyStr game.playerB = false)
    (h2 : game.playerA = jsToLower pb) :
    joinGame db mid pb = (db, some JoinError.SelfPlay) := by
  unfold joinGame
  rw [hdb]
  simp [h1, h2]

lemma joinGame_eq_ok (db : Registry) (mid pb : String) (game : Game)
    (hdb : db mid = some game) (h1 : truthyStr game.playerB = false)
    (h2 : game.playerA ≠ jsToLower pb) :
    joinGame db mid pb =
      (dbSet db mid
        { game with playerB := some (jsToLower pb), status := Status.PLAYING },
       none) := by
  unfold joinGame
  rw [hdb]
  simp [h1, h2]

/-! ### Board length through `moveUpdate` -/

lemma moveUpdate_board_length (game : Game) (player : String) (index : Nat)
    (s : Option String) (h9 : game.board.length = 9) (hidx : index < 9) :
    (moveUpdate game player index s).board.length = 9 := by
  have hub : (updatedBoard game player index).length = 9 := by
    have h := length_arraySet_of_lt game.board index (some (mark game player))
      (by rw [h9]; exact hidx)
    rw [updatedBoard, h, h9]
  unfold moveUpdate
  cases hcw : checkWin (updatedBoard game player index) with
  | some w => simp [hcw, hub]
  | none =>
    by_cases hf : boardFull (updatedBoard game player index) <;>
      simp [hcw, hf, hub]

/-- Any store of the shape `dbSet db0 k g` with a 9-cell `g` satisfies the
board-size invariant. -/
lemma boards9_dbSet_db0 (mid : String) (g : Game) (h : g.board.length = 9) :
    boards9 (dbSet db0 mid g) := by
  intro k g' hk
  rw [dbSet] at hk
  by_cases hkm : k = mid
  · rw [if_pos hkm] at hk
    cases hk
    exact h
  · rw [if_neg hkm] at hk
    simp [db0] at hk

/-! ### Branch equations of `moveUpdate` -/

lemma moveUpdate_win (game : Game) (player : String) (index : Nat)
    (s : Option String) (w : Mark)
    (hcw : checkWin (updatedBoard game player index) = some w) :
    moveUpdate game player index s =
      { game with
        board := updatedBoard game player index
        status := Status.COMPLETED
        winner := if w = Mark.X then some game.playerA else game.playerB
        signature :=
          match s with
          | some t => some t
          | none => game.signature } := by
  unfold moveUpdate
  rw [hcw]

lemma moveUpdate_draw (game : Game) (player : String) (index : Nat)
    (s : Option String)
    (hcw : checkWin (updatedBoard game player index) = none)
    (hfull : boardFull (updatedBoard game player index) = true) :
    moveUpdate game player index s =
      { game with board := List.replicate 9 none } := by
  unfold moveUpdate
  rw [hcw, hfull]
  rfl

lemma moveUpdate_flip (game : Game) (player : String) (index : Nat)
    (s : Option String)
    (hcw : checkWin (updatedBoard game player index) = none)
    (hfull : boardFull (updatedBoard game player index) = false) :
    moveUpdate game player index s =
      { game with
        board := updatedBoard game player index
        turn := if game.turn = some game.playerA then game.playerB
                else some game.playerA } := by
  unfold moveUpdate
  rw [hcw, hfull]
  rfl

/-- A rejected `/makeMove` leaves the database untouched. -/
lemma makeMove_error_db (db : Registry) (mid player : String) (i : Nat)
    (s : Option String) (e : MoveError)
    (h : (makeMove db mid player i s).resp = Except.error e) :
    (makeMove db mid player i s).db = db := by
  cases hdb : db mid with
  | none => rw [makeMove_eq_notFound db mid player i s hdb]
  | some game =>
    by_cases h1 : game.status = Status.PLAYING
    · by_cases h2 : game.turn = some (jsToLower player)
      · by_cases h3 : cellAt game.board i = none
        · rw [makeMove_eq_ok db mid player i s game hdb h1 h2 h3] at h
          simp at h
        · have h3' : (cellAt game.board i).isSome := by
            cases hc : cellAt game.board i
            · exact absurd hc h3
            · rfl
          rw [makeMove_eq_cellTaken db mid player i s game hdb h1 h2 h3']
      · rw [makeMove_eq_notYourTurn db mid player i s game hdb h1 h2]
    · rw [makeMove_eq_notActive db mid player i s game hdb h1]

/-! ### Claim C4 — Win Detector contract -/

/-- C4: for every 9-cell board of empty cells or marks, `checkWin` is sound
(a returned mark owns one of the 8 winning triples), complete (if some
triple is fully one mark, a winner is reported), and never reports both
marks for the same board. -/
theorem checkWin_sound_complete (board : List Cell) (hlen : board.length = 9) :
    (∀ m, checkWin board = some m → winningTriple board m) ∧
    ((∃ m, winningTriple board m) ↔ (checkWin board).isSome) ∧
    ¬(checkWin board = some Mark.X ∧ checkWin board = some Mark.O) := by
  refine ⟨fun m h => checkWin_sound board m h, ⟨?_, ?_⟩, ?_⟩
  · rintro ⟨m, hm⟩
    exact checkWin_isSome_of_winningTriple board m hm
  · intro h
    cases hcw : checkWin board with
    | none => rw [hcw] at h; simp at h
    | some m => exact ⟨m, checkWin_sound board m hcw⟩
  · rintro ⟨hX, hO⟩
    rw [hX] at hO
    simp at hO

/-- A concrete board with a completed X top row. -/
def boardXRow : List Cell :=
  [some Mark.X, some Mark.X, some Mark.X, some Mark.O, some Mark.O,
   none, none, none, none]

/-- Witness for C4 at a concrete 9-cell board with a winning X row. -/
theorem checkWin_sound_complete_witness :
    boardXRow.length = 9 ∧
    ((∀ m, checkWin boardXRow = some m → winningTriple boardXRow m) ∧
     ((∃ m, winningTriple boardXRow m) ↔ (checkWin boardXRow).isSome) ∧
     ¬(checkWin boardXRow = some Mark.X ∧ checkWin boardXRow = some Mark.O)) :=
  ⟨rfl, checkWin_sound_complete boardXRow rfl⟩

/-! ### Claim C9 — CreateMatch and existing matches -/

/-- C9 counterexample: `"111111"` holds a live `PLAYING` match in `dbAB`,
yet a `createGame` whose generated id collides with it replaces that match
with a fresh `WAITING` one (`Map.set` overwrites), so the claim that every
existing match still maps to the same entity fails. -/
theorem create_collision_overwrites_cex :
    dbAB "111111" = some gAB ∧
    createGame dbAB "111111" "Carol" "111111" = some (newGame "111111" "Carol") ∧
    dbAB "111111" ≠ some (newGame "111111" "Carol") :=
  ⟨rfl, rfl, by decide⟩

/-- C9 (amended): `createGame` leaves every match stored under a different
id unchanged, but stores the fresh `WAITING` match under the generated id
unconditionally — on a collision the previous match is replaced. -/
theorem createGame_frame (db : Registry) (mid pA k : String) (hk : k ≠ mid) :
    createGame db mid pA k = db k ∧
    createGame db mid pA mid = some (newGame mid pA) :=
  ⟨dbSet_ne db mid _ k hk, dbSet_self db mid _⟩

/-- Witness for C9 (amended) at concrete ids. -/
theorem createGame_frame_witness :
    createGame db0 "123456" "Alice" "654321" = db0 "654321" ∧
    createGame db0 "123456" "Alice" "123456" = some (newGame "123456" "Alice") :=
  createGame_frame db0 "123456" "Alice" "654321" (by decide)

/-! ### Claim C1 — no InvalidIndex check exists -/

/-- C1 counterexample: cell index `9` lies outside `[0,9)`, yet the move is
not rejected at all — `game.board[9]` is `undefined` (empty), the four
checks pass, and the handler answers with the ordinary success response,
the board now holding a tenth cell.  No `InvalidIndex` error exists in the
handler. -/
theorem makeMove_index9_accepted_cex :
    ¬(9 < 9) ∧
    (makeMove dbAB "111111" "Alice" 9 none).resp =
      Except.ok
        { matchId := "111111", playerA := "alice", playerB := some "bob",
          board := List.replicate 9 none ++ [some Mark.X],
          turn := some "bob", winner := none, status := Status.PLAYING,
          signature := none } :=
  ⟨by decide, rfl⟩

/-- C1 (amended): `/makeMove` performs no index-range check and has no
`InvalidIndex` error.  A request whose cell index lies at or beyond the end
of the board reads an empty cell there, so once the `NotFound`,
`GameNotActive` and `NotYourTurn` checks pass (in that order, followed by
the cell-empty check) the move is accepted and the board is extended to
`index + 1` cells. -/
theorem makeMove_out_of_range_accepted (db : Registry) (mid player : String)
    (index : Nat) (s : Option String) (game : Game) (hdb : db mid = some game)
    (hst : game.status = Status.PLAYING) (hturn : game.turn = some (jsToLower player))
    (hidx : game.board.length ≤ index) (hempty : none ∈ game.board) :
    (makeMove db mid player index s).resp =
      Except.ok (moveUpdate game player index s) ∧
    (moveUpdate game player index s).board.length = index + 1 := by
  have hcell : cellAt game.board index = none := by
    rw [cellAt, List.getD_eq_default _ _ hidx]
  have hub : (updatedBoard game player index).length = index + 1 :=
    length_arraySet_of_ge game.board index (some (mark game player)) hidx
  constructor
  · rw [makeMove_eq_ok db mid player index s game hdb hst hturn hcell]
  · unfold moveUpdate
    cases hcw : checkWin (updatedBoard game player index) with
    | some w => simp [hcw, hub]
    | none =>
      have hfull : boardFull (updatedBoard game player index) = false :=
        boardFull_eq_false_of_mem _
          (mem_arraySet_of_ge game.board index (some (mark game player)) none
            hidx hempty)
      simp [hcw, hfull, hub]

/-- Witness for C1 (amended): the out-of-range move at index 9 on the fresh
`PLAYING` match is accepted and yields a 10-cell board. -/
theorem makeMove_out_of_range_accepted_witness :
    (makeMove dbAB "111111" "Alice" 9 none).resp =
      Except.ok (moveUpdate gAB "Alice" 9 none) ∧
    (moveUpdate gAB "Alice" 9 none).board.length = 9 + 1 :=
  makeMove_out_of_range_accepted dbAB "111111" "Alice" 9 none gAB rfl rfl rfl
    (by decide) (by decide)

/-! ### Claim C7 — rejected moves never mutate state -/

/-- C7 counterexample: the §4.3 precondition `cellIndex ∈ [0,9)` fails at
index 9, yet the call is not rejected and the stored match changes — a
precondition violation that mutates state. -/
theorem invalid_index_mutates_cex :
    ¬(9 < 9) ∧
    (makeMove dbAB "111111" "Alice" 9 none).db "111111" ≠ dbAB "111111" :=
  ⟨by decide, by decide⟩

/-- C7 (amended): whenever one of the four checks the handler actually
performs fails, the call is rejected with that distinct error and the
database is exactly unchanged; each error is reported if and only if its
check (in source order) is the first to fail.  The range precondition is
not among them (see the counterexample). -/
theorem makeMove_reject_no_mutation (db : Registry) (mid player : String)
    (index : Nat) (s : Option String) :
    (∀ e, (makeMove db mid player index s).resp = Except.error e →
      (makeMove db mid player index s).db = db) ∧
    ((makeMove db mid player index s).resp = Except.error MoveError.NotFound ↔
      db mid = none) ∧
    (∀ game, db mid = some game →
      ((makeMove db mid player index s).resp = Except.error MoveError.GameNotActive ↔
        game.status ≠ Status.PLAYING) ∧
      ((makeMove db mid player index s).resp = Except.error MoveError.NotYourTurn ↔
        (game.status = Status.PLAYING ∧ game.turn ≠ some (jsToLower player))) ∧
      ((makeMove db mid player index s).resp = Except.error MoveError.CellTaken ↔
        (game.status = Status.PLAYING ∧ game.turn = some (jsToLower player) ∧
         (cellAt game.board index).isSome))) := by
  refine ⟨fun e he => makeMove_error_db db mid player index s e he, ?_, ?_⟩
  · constructor
    · intro h
      cases hdb : db mid with
      | none => rfl
      | some game =>
        exfalso
        by_cases h1 : game.status = Status.PLAYING
        · by_cases h2 : game.turn = some (jsToLower player)
          · by_cases h3 : cellAt game.board index = none
            · rw [makeMove_eq_ok db mid player index s game hdb h1 h2 h3] at h
              simp at h
            · have h3' : (cellAt game.board index).isSome := by
                cases hc : cellAt game.board index
                · exact absurd hc h3
                · rfl
              rw [makeMove_eq_cellTaken db mid player index s game hdb h1 h2 h3'] at h
              simp at h
          · rw [makeMove_eq_notYourTurn db mid player index s game hdb h1 h2] at h
            simp at h
        · rw [makeMove_eq_notActive db mid player index s game hdb h1] at h
          simp at h
    · intro h
      rw [makeMove_eq_notFound db mid player index s h]
  · intro game hdb
    by_cases h1 : game.status = Status.PLAYING
    · by_cases h2 : game.turn = some (jsToLower player)
      · by_cases h3 : cellAt game.board index = none
        · have heq := makeMove_eq_ok db mid player index s game hdb h1 h2 h3
          refine ⟨⟨?_, ?_⟩, ⟨?_, ?_⟩, ⟨?_, ?_⟩⟩ <;> intro h
          · rw [heq] at h; simp at h
          · exact absurd h1 h
          · rw [heq] at h; simp at h
          · exact absurd h.2 (not_not.2 h2)
          · rw [heq] at h; simp at h
          · exfalso
            have hcontr := h.2.2
            rw [h3] at hcontr
            simp at hcontr
        · have h3' : (cellAt game.board index).isSome := by
            cases hc : cellAt game.board index
            · exact absurd hc h3
            · rfl
          have heq := makeMove_eq_cellTaken db mid player index s game hdb h1 h2 h3'
          refine ⟨⟨?_, ?_⟩, ⟨?_, ?_⟩, ⟨?_, ?_⟩⟩ <;> intro h
          · rw [heq] at h; simp at h
          · exact absurd h1 h
          · rw [heq] at h; simp at h
          · exact absurd h.2 (not_not.2 h2)
          · exact ⟨h1, h2, h3'⟩
          · rw [heq]
      · have heq := makeMove_eq_notYourTurn db mid player index s game hdb h1 h2
        refine ⟨⟨?_, ?_⟩, ⟨?_, ?_⟩, ⟨?_, ?_⟩⟩ <;> intro h
        · rw [heq] at h; simp at h
        · exact absurd h1 h
        · exact ⟨h1, h2⟩
        · rw [heq]
        · rw [heq] at h; simp at h
        · exact absurd h.2.1 h2
    · have heq := makeMove_eq_notActive db mid player index s game hdb h1
      refine ⟨⟨?_, ?_⟩, ⟨?_, ?_⟩, ⟨?_, ?_⟩⟩ <;> intro h
      · exact h1
      · rw [heq]
      · rw [heq] at h; simp at h
      · exact absurd h.1 h1
      · rw [heq] at h; simp at h
      · exact absurd h.1 h1

/-- Witness for C7 (amended) at a concrete rejected request: `"Eve"` moves
out of turn on the match `"222222"`. -/
theorem makeMove_reject_no_mutation_witness :
    (∀ e, (makeMove dbWin "222222" "Eve" 4 none).resp = Except.error e →
      (makeMove dbWin "222222" "Eve" 4 none).db = dbWin) ∧
    ((makeMove dbWin "222222" "Eve" 4 none).resp = Except.error MoveError.NotFound ↔
      dbWin "222222" = none) ∧
    (∀ game, dbWin "222222" = some game →
      ((makeMove dbWin "222222" "Eve" 4 none).resp = Except.error MoveError.GameNotActive ↔
        game.status ≠ Status.PLAYING) ∧
      ((makeMove dbWin "222222" "Eve" 4 none).resp = Except.error MoveError.NotYourTurn ↔
        (game.status = Status.PLAYING ∧ game.turn ≠ some (jsToLower "Eve"))) ∧
      ((makeMove dbWin "222222" "Eve" 4 none).resp = Except.error MoveError.CellTaken ↔
        (game.status = Status.PLAYING ∧ game.turn = some (jsToLower "Eve") ∧
         (cellAt game.board 4).isSome))) :=
  makeMove_reject_no_mutation dbWin "222222" "Eve" 4 none

/-! ### Claim C3 — the 9-cell board invariant -/

/-- C3 counterexample: starting from the reachable 9-cell match in `dbAB`,
the accepted move at cell index 12 leaves a 13-cell board in the store, so
"board always has exactly 9 cells ... regardless of the supplied cellIndex"
fails. -/
theorem board_grows_beyond_nine_cex :
    (dbAB "111111").map (fun g => g.board.length) = some 9 ∧
    ((makeMove dbAB "111111" "Alice" 12 none).db "111111").map
      (fun g => g.board.length) = some 13 :=
  ⟨rfl, rfl⟩

/-- C3 (amended): `createGame` and `joinGame` preserve the 9-cell board
invariant unconditionally, `makeMove` preserves it whenever the supplied
cell index is within `[0,9)` (out-of-range indices grow the board, see the
counterexample), and an accepted move only ever writes its mark into a cell
that was empty — a non-empty cell is never overwritten with a mark (the
draw rule's whole-board reset to empty is a separate, specified
transition). -/
theorem board_nine_cells_preserved (db : Registry) (mid player pA : String)
    (index : Nat) (s : Option String) (h9 : boards9 db) (hidx : index < 9) :
    boards9 (createGame db mid pA) ∧
    boards9 (joinGame db mid player).1 ∧
    boards9 (makeMove db mid player index s).db ∧
    (∀ game g', db mid = some game →
      (makeMove db mid player index s).resp = Except.ok g' →
      cellAt game.board index = none) := by
  refine ⟨?_, ?_, ?_, ?_⟩
  · intro k g hk
    by_cases hkm : k = mid
    · subst hkm
      rw [createGame, dbSet_self] at hk
      cases hk
      simp [newGame]
    · rw [createGame, dbSet_ne db mid _ k hkm] at hk
      exact h9 k g hk
  · intro k g hk
    cases hdb : db mid with
    | none =>
      rw [joinGame_eq_notFound db mid player hdb] at hk
      exact h9 k g hk
    | some game =>
      by_cases hfull : truthyStr game.playerB = true
      · rw [joinGame_eq_alreadyFull db mid player game hdb hfull] at hk
        exact h9 k g hk
      · have hfull' : truthyStr game.playerB = false := by
          cases ht : truthyStr game.playerB
          · rfl
          · exact absurd ht hfull
        by_cases hself : game.playerA = jsToLower player
        · rw [joinGame_eq_selfPlay db mid player game hdb hfull' hself] at hk
          exact h9 k g hk
        · rw [joinGame_eq_ok db mid player game hdb hfull' hself] at hk
          have hk' : dbSet db mid { game with playerB := some (jsToLower player), status := Status.PLAYING } k = some g := hk
          by_cases hkm : k = mid
          · subst hkm
            rw [dbSet_self] at hk'
            cases hk'
            exact h9 k game hdb
          · rw [dbSet_ne db mid _ k hkm] at hk'
            exact h9 k g hk'
  · intro k g hk
    cases hdb : db mid with
    | none =>
      rw [makeMove_eq_notFound db mid player index s hdb] at hk
      exact h9 k g hk
    | some game =>
      by_cases h1 : game.status = Status.PLAYING
      · by_cases h2 : game.turn = some (jsToLower player)
        · by_cases h3 : cellAt game.board index = none
          · rw [makeMove_eq_ok db mid player index s game hdb h1 h2 h3] at hk
            have hk' : dbSet db mid (moveUpdate game player index s) k =
                some g := hk
            by_cases hkm : k = mid
            · subst hkm
              rw [dbSet_self] at hk'
              cases hk'
              exact moveUpdate_board_length game player index s
                (h9 k game hdb) hidx
            · rw [dbSet_ne db mid _ k hkm] at hk'
              exact h9 k g hk'
          · have h3' : (cellAt game.board index).isSome := by
              cases hc : cellAt game.board index
              · exact absurd hc h3
              · rfl
            rw [makeMove_eq_cellTaken db mid player index s game hdb h1 h2 h3'] at hk
            exact h9 k g hk
        · rw [makeMove_eq_notYourTurn db mid player index s game hdb h1 h2] at hk
          exact h9 k g hk
      · rw [makeMove_eq_notActive db mid player index s game hdb h1] at hk
        exact h9 k g hk
  · intro game g' hdb hok
    exact (makeMove_ok_inv db mid player index s game g' hdb hok).2.2.1

/-- Witness for C3 (amended) at the concrete store `dbWin` and cell 2. -/
theorem board_nine_cells_preserved_witness :
    boards9 (createGame dbWin "222222" "Carol") ∧
    boards9 (joinGame dbWin "222222" "Bob").1 ∧
    boards9 (makeMove dbWin "222222" "Bob" 2 none).db ∧
    (∀ game g', dbWin "222222" = some game →
      (makeMove dbWin "222222" "Bob" 2 none).resp = Except.ok g' →
      cellAt game.board 2 = none) :=
  board_nine_cells_preserved dbWin "222222" "Bob" "Carol" 2 none
    (boards9_dbSet_db0 "222222" gWin (by decide)) (by decide)

/-! ### Claim C5 — mark placement and win handling -/

/-- C5: every accepted move writes the mover's mark — X when the mover's
lowercased identity equals `playerA`, O otherwise (the spec's mark 1 and
mark 2) — into `board[cellIndex]` of the board the Win Detector then runs
on; and when that updated board contains a winning line, the stored match
keeps exactly that board, becomes `COMPLETED`, and `winner` is the identity
owning the winning mark (`playerA` for X, `playerB` for O). -/
theorem makeMove_win_sets_winner (db : Registry) (mid player : String)
    (index : Nat) (s : Option String) (game g' : Game)
    (hdb : db mid = some game)
    (hok : (makeMove db mid player index s).resp = Except.ok g') :
    cellAt (updatedBoard game player index) index = some (mark game player) ∧
    (∀ w, checkWin (updatedBoard game player index) = some w →
      g'.board = updatedBoard game player index ∧
      cellAt g'.board index = some (mark game player) ∧
      g'.status = Status.COMPLETED ∧
      g'.winner = (if w = Mark.X then some game.playerA else game.playerB)) := by
  obtain ⟨hst, hturn, hcell, hg', _⟩ :=
    makeMove_ok_inv db mid player index s game g' hdb hok
  subst hg'
  refine ⟨cellAt_arraySet_self game.board index (some (mark game player)), ?_⟩
  intro w hwin
  rw [moveUpdate_win game player index s w hwin]
  exact ⟨rfl, cellAt_arraySet_self game.board index (some (mark game player)),
    rfl, rfl⟩

/-- Witness for C5: `"Alice"` completes the X top row on `dbWin` with a
successful signature. -/
theorem makeMove_win_sets_winner_witness :
    cellAt (updatedBoard gWin "Alice" 2) 2 = some (mark gWin "Alice") ∧
    (∀ w, checkWin (updatedBoard gWin "Alice" 2) = some w →
      (moveUpdate gWin "Alice" 2 (some "sig")).board = updatedBoard gWin "Alice" 2 ∧
      cellAt (moveUpdate gWin "Alice" 2 (some "sig")).board 2 = some (mark gWin "Alice") ∧
      (moveUpdate gWin "Alice" 2 (some "sig")).status = Status.COMPLETED ∧
      (moveUpdate gWin "Alice" 2 (some "sig")).winner =
        (if w = Mark.X then some gWin.playerA else gWin.playerB)) :=
  makeMove_win_sets_winner dbWin "222222" "Alice" 2 (some "sig") gWin
    (moveUpdate gWin "Alice" 2 (some "sig")) rfl rfl

/-! ### Claim C2 — signing failure on a winning move -/

/-- C2 counterexample: `"Alice"` completes a winning line while the signer
throws (`signOutcome = none`).  The match is `COMPLETED` with `winner` set
and no attestation — but the handler answers with the ordinary
`{success: true, game}` response: no `SettlementPending` (or any other)
condition is reported to the caller, refuting "the failure is never
silent". -/
theorem signing_failure_silent_cex :
    (makeMove dbWin "222222" "Alice" 2 none).resp =
      Except.ok
        { matchId := "222222", playerA := "alice", playerB := some "bob",
          board := [some Mark.X, some Mark.X, some Mark.X, some Mark.O,
                    some Mark.O, none, none, none, none],
          turn := some "alice", winner := some "alice",
          status := Status.COMPLETED, signature := none } :=
  rfl

/-- C2 (amended): when the signing step fails on a winning move, the match
does end `COMPLETED` with `winner` set and the attestation stays absent
(`signature` unchanged), but the failure is only logged server-side: the
call returns the plain success response, with no `SettlementPending`
condition — the response type of the handler has no such condition at
all. -/
theorem makeMove_signing_failure_state (db : Registry) (mid player : String)
    (index : Nat) (game g' : Game) (w : Mark) (hdb : db mid = some game)
    (hok : (makeMove db mid player index none).resp = Except.ok g')
    (hwin : checkWin (updatedBoard game player index) = some w) :
    g'.status = Status.COMPLETED ∧
    g'.winner = (if w = Mark.X then some game.playerA else game.playerB) ∧
    g'.signature = game.signature := by
  obtain ⟨hst, hturn, hcell, hg', _⟩ :=
    makeMove_ok_inv db mid player index none game g' hdb hok
  subst hg'
  rw [moveUpdate_win game player index none w hwin]
  exact ⟨rfl, rfl, rfl⟩

/-- Witness for C2 (amended) at the concrete winning move with a failed
signing attempt. -/
theorem makeMove_signing_failure_state_witness :
    (moveUpdate gWin "Alice" 2 none).status = Status.COMPLETED ∧
    (moveUpdate gWin "Alice" 2 none).winner =
      (if Mark.X = Mark.X then some gWin.playerA else gWin.playerB) ∧
    (moveUpdate gWin "Alice" 2 none).signature = gWin.signature :=
  makeMove_signing_failure_state dbWin "222222" "Alice" 2 gWin
    (moveUpdate gWin "Alice" 2 none) Mark.X rfl rfl rfl

/-! ### Claim C6 — draw-replay reset and turn flip -/

/-- C6: an accepted move that fills the board without a winning line resets
the board to 9 empty cells, keeps `status` at `PLAYING` and leaves `turn`
unchanged (the pre-draw turn holder opens the replay round); an accepted
move that neither wins nor draws flips `turn` to the other participant. -/
theorem makeMove_draw_and_flip (db : Registry) (mid player : String)
    (index : Nat) (s : Option String) (game g' : Game)
    (hdb : db mid = some game)
    (hok : (makeMove db mid player index s).resp = Except.ok g')
    (hnw : checkWin (updatedBoard game player index) = none) :
    (boardFull (updatedBoard game player index) = true →
      g'.board = List.replicate 9 none ∧ g'.status = Status.PLAYING ∧
      g'.turn = game.turn) ∧
    (boardFull (updatedBoard game player index) = false →
      g'.turn = (if game.turn = some game.playerA then game.playerB
                 else some game.playerA) ∧
      (∀ pb, game.playerB = some pb → pb ≠ game.playerA →
        g'.turn ≠ game.turn)) := by
  obtain ⟨hst, hturn, hcell, hg', _⟩ :=
    makeMove_ok_inv db mid player index s game g' hdb hok
  subst hg'
  constructor
  · intro hfull
    rw [moveUpdate_draw game player index s hnw hfull]
    exact ⟨rfl, hst, rfl⟩
  · intro hfull
    rw [moveUpdate_flip game player index s hnw hfull]
    refine ⟨rfl, ?_⟩
    intro pb hpb hne hEq
    have hEq' : (if game.turn = some game.playerA then game.playerB
        else some game.playerA) = game.turn := hEq
    by_cases hA : game.turn = some game.playerA
    · rw [if_pos hA, hpb, hA] at hEq'
      exact hne (by simpa using hEq')
    · rw [if_neg hA] at hEq'
      exact hA hEq'.symm

/-- Witness for C6, exercising both branches: the drawing move at cell 7 on
`dbDraw` (board reset, turn kept) and the opening move at cell 0 on `dbAB`
(turn flips to `"bob"`). -/
theorem makeMove_draw_and_flip_witness :
    ((boardFull (updatedBoard gDraw "Alice" 7) = true →
      (moveUpdate gDraw "Alice" 7 none).board = List.replicate 9 none ∧
      (moveUpdate gDraw "Alice" 7 none).status = Status.PLAYING ∧
      (moveUpdate gDraw "Alice" 7 none).turn = gDraw.turn) ∧
     (boardFull (updatedBoard gDraw "Alice" 7) = false →
      (moveUpdate gDraw "Alice" 7 none).turn =
        (if gDraw.turn = some gDraw.playerA then gDraw.playerB
         else some gDraw.playerA) ∧
      (∀ pb, gDraw.playerB = some pb → pb ≠ gDraw.playerA →
        (moveUpdate gDraw "Alice" 7 none).turn ≠ gDraw.turn))) ∧
    ((boardFull (updatedBoard gAB "Alice" 0) = true →
      (moveUpdate gAB "Alice" 0 none).board = List.replicate 9 none ∧
      (moveUpdate gAB "Alice" 0 none).status = Status.PLAYING ∧
      (moveUpdate gAB "Alice" 0 none).turn = gAB.turn) ∧
     (boardFull (updatedBoard gAB "Alice" 0) = false →
      (moveUpdate gAB "Alice" 0 none).turn =
        (if gAB.turn = some gAB.playerA then gAB.playerB
         else some gAB.playerA) ∧
      (∀ pb, gAB.playerB = some pb → pb ≠ gAB.playerA →
        (moveUpdate gAB "Alice" 0 none).turn ≠ gAB.turn))) :=
  ⟨makeMove_draw_and_flip dbDraw "444444" "Alice" 7 none gDraw
      (moveUpdate gDraw "Alice" 7 none) rfl rfl rfl,
   makeMove_draw_and_flip dbAB "111111" "Alice" 0 none gAB
      (moveUpdate gAB "Alice" 0 none) rfl rfl rfl⟩

/-! ### Claim C10 — fields untouched by an accepted move -/

/-- C10: every accepted move leaves `playerA`, `playerB` and `matchId`
unchanged, and a winning (COMPLETED-producing) move additionally leaves
`turn` unchanged, so it still equals the winning mover's lowercased
identity. -/
theorem makeMove_frame_fields (db : Registry) (mid player : String)
    (index : Nat) (s : Option String) (game g' : Game)
    (hdb : db mid = some game)
    (hok : (makeMove db mid player index s).resp = Except.ok g') :
    g'.playerA = game.playerA ∧ g'.playerB = game.playerB ∧
    g'.matchId = game.matchId ∧
    (g'.status = Status.COMPLETED →
      g'.turn = game.turn ∧ g'.turn = some (jsToLower player)) := by
  obtain ⟨hst, hturn, hcell, hg', _⟩ :=
    makeMove_ok_inv db mid player index s game g' hdb hok
  subst hg'
  cases hcw : checkWin (updatedBoard game player index) with
  | some w =>
    rw [moveUpdate_win game player index s w hcw]
    exact ⟨rfl, rfl, rfl, fun _ => ⟨rfl, hturn⟩⟩
  | none =>
    cases hfull : boardFull (updatedBoard game player index) with
    | true =>
      rw [moveUpdate_draw game player index s hcw hfull]
      refine ⟨rfl, rfl, rfl, fun hc => ?_⟩
      have hc' : game.status = Status.COMPLETED := hc
      rw [hst] at hc'
      simp at hc'
    | false =>
      rw [moveUpdate_flip game player index s hcw hfull]
      refine ⟨rfl, rfl, rfl, fun hc => ?_⟩
      have hc' : game.status = Status.COMPLETED := hc
      rw [hst] at hc'
      simp at hc'

/-- Witness for C10 at the concrete winning move on `dbWin`. -/
theorem makeMove_frame_fields_witness :
    (moveUpdate gWin "Alice" 2 (some "s2")).playerA = gWin.playerA ∧
    (moveUpdate gWin "Alice" 2 (some "s2")).playerB = gWin.playerB ∧
    (moveUpdate gWin "Alice" 2 (some "s2")).matchId = gWin.matchId ∧
    ((moveUpdate gWin "Alice" 2 (some "s2")).status = Status.COMPLETED →
      (moveUpdate gWin "Alice" 2 (some "s2")).turn = gWin.turn ∧
      (moveUpdate gWin "Alice" 2 (some "s2")).turn = some (jsToLower "Alice")) :=
  makeMove_frame_fields dbWin "222222" "Alice" 2 (some "s2") gWin
    (moveUpdate gWin "Alice" 2 (some "s2")) rfl rfl

/-! ### Claim C8 — joinGame failure kinds -/

/-- C8 counterexample: after a join with the empty-string identity,
`playerB` is set (to `""`), yet a second join does not fail with
`AlreadyFull` — JS `if (game.playerB)` is a truthiness test and `""` is
falsy — and instead succeeds, overwriting `playerB` with `"bob"`. -/
theorem join_empty_playerB_cex :
    (dbC8b "333333").map (fun g => g.playerB) = some (some "") ∧
    (joinGame dbC8b "333333" "Bob").2 = none ∧
    ((joinGame dbC8b "333333" "Bob").1 "333333").map (fun g => g.playerB) =
      some (some "bob") :=
  ⟨rfl, rfl, rfl⟩

/-- C8 (amended): `joinGame` fails with `NotFound` iff no match has the id;
with `AlreadyFull` iff the match's `playerB` field is truthy, i.e. set to a
non-empty identity (a `playerB` equal to the empty string is treated as
absent and overwritten); with `SelfPlay` iff `playerB` is falsy and the
joining identity lowercases to `playerA`; otherwise it succeeds, storing
the lowercased identity in `playerB` and moving `status` to `PLAYING`.
`NotFound`, `AlreadyFull` and `SelfPlay` are the only failure kinds. -/
theorem joinGame_characterization (db : Registry) (mid pb : String) :
    ((joinGame db mid pb).2 = some JoinError.NotFound ↔ db mid = none) ∧
    (∀ game, db mid = some game →
      ((joinGame db mid pb).2 = some JoinError.AlreadyFull ↔
        truthyStr game.playerB = true) ∧
      ((joinGame db mid pb).2 = some JoinError.SelfPlay ↔
        (truthyStr game.playerB = false ∧ game.playerA = jsToLower pb)) ∧
      (truthyStr game.playerB = false → game.playerA ≠ jsToLower pb →
        (joinGame db mid pb).2 = none ∧
        (joinGame db mid pb).1 mid =
          some { game with playerB := some (jsToLower pb),
                           status := Status.PLAYING })) := by
  constructor
  · constructor
    · intro h
      cases hdb : db mid with
      | none => rfl
      | some game =>
        exfalso
        by_cases h1 : truthyStr game.playerB = true
        · rw [joinGame_eq_alreadyFull db mid pb game hdb h1] at h
          simp at h
        · have h1' : truthyStr game.playerB = false := by
            cases ht : truthyStr game.playerB
            · rfl
            · exact absurd ht h1
          by_cases h2 : game.playerA = jsToLower pb
          · rw [joinGame_eq_selfPlay db mid pb game hdb h1' h2] at h
            simp at h
          · rw [joinGame_eq_ok db mid pb game hdb h1' h2] at h
            simp at h
    · intro h
      rw [joinGame_eq_notFound db mid pb h]
  · intro game hdb
    by_cases h1 : truthyStr game.playerB = true
    · have heq := joinGame_eq_alreadyFull db mid pb game hdb h1
      refine ⟨⟨fun _ => h1, fun _ => by rw [heq]⟩, ⟨?_, ?_⟩, ?_⟩
      · intro h
        rw [heq] at h
        simp at h
      · intro h
        rw [h.1] at h1
        simp at h1
      · intro h
        rw [h] at h1
        simp at h1
    · have h1' : truthyStr game.playerB = false := by
        cases ht : truthyStr game.playerB
        · rfl
        · exact absurd ht h1
      by_cases h2 : game.playerA = jsToLower pb
      · have heq := joinGame_eq_selfPlay db mid pb game hdb h1' h2
        refine ⟨⟨?_, ?_⟩, ⟨fun _ => ⟨h1', h2⟩, fun _ => by rw [heq]⟩, ?_⟩
        · intro h
          rw [heq] at h
          simp at h
        · intro h
          rw [h] at h1'
          simp at h1'
        · intro _ hne
          exact absurd h2 hne
      · have heq := joinGame_eq_ok db mid pb game hdb h1' h2
        refine ⟨⟨?_, ?_⟩, ⟨?_, ?_⟩, ?_⟩
        · intro h
          rw [heq] at h
          simp at h
        · intro h
          rw [h] at h1'
          simp at h1'
        · intro h
          rw [heq] at h
          simp at h
        · intro h
          exact absurd h.2 h2
        · intro _ _
          rw [heq]
          exact ⟨rfl, dbSet_self db mid _⟩

/-- Witness for C8 (amended) at the fresh `WAITING` match in `dbC8a`. -/
theorem joinGame_characterization_witness :
    ((joinGame dbC8a "333333" "Bob").2 = some JoinError.NotFound ↔
      dbC8a "333333" = none) ∧
    (∀ game, dbC8a "333333" = some game →
      ((joinGame dbC8a "333333" "Bob").2 = some JoinError.AlreadyFull ↔
        truthyStr game.playerB = true) ∧
      ((joinGame dbC8a "333333" "Bob").2 = some JoinError.SelfPlay ↔
        (truthyStr game.playerB = false ∧ game.playerA = jsToLower "Bob")) ∧
      (truthyStr game.playerB = false → game.playerA ≠ jsToLower "Bob" →
        (joinGame dbC8a "333333" "Bob").2 = none ∧
        (joinGame dbC8a "333333" "Bob").1 "333333" =
          some { game with playerB := some (jsToLower "Bob"),
                           status := Status.PLAYING })) :=
  joinGame_characterization dbC8a "333333" "Bob"

end TicTacToe
